import Mathlib

/-!
Verification development for the News-Summarizer-Bias-Detector repository.

The repository is a browser front-end plus Netlify serverless proxies around a
hosted LLM API.  We shallowly embed the code paths the claims are about:

* `Str` models a JavaScript string as a list of characters.
* `Json` models a parsed JSON value; `jsonParse` models `JSON.parse` (a
  fuel-based parser over the standard JSON grammar; the engine-specific text of
  a `SyntaxError` is modelled by the fixed non-empty string
  `mJsonParseError`).
* The nondeterministic LLM response for one `generateContent` call is an
  explicit oracle argument of type `Except Str Str`: `.error e` models a
  rejected promise with message `e`, `.ok t` models a response with text `t`.
* Namespace `Fn` embeds `src/functions/analyze.ts`, namespace `Proxy` embeds
  the self-contained gemini-proxy handler found in `src/types.ts`, namespace
  `Client` embeds `src/services/geminiService.ts`, namespaces `LatestNews` and
  `App` embed the client-side components.
-/

set_option linter.unusedVariables false
set_option linter.unnecessarySeqFocus false

/-- JavaScript strings, modelled as lists of characters. -/
abbrev Str := List Char

/-- ASCII whitespace, the characters relevant to `String.prototype.trim` and to
JSON insignificant whitespace for the inputs this development deals with. -/
def isWhite (c : Char) : Bool := c = ' ' || c = '\t' || c = '\n' || c = '\r'

/-- Skip leading whitespace (JSON lexing helper). -/
def skipWs (s : Str) : Str := s.dropWhile isWhite

/-- Model of `String.prototype.trim`: drop whitespace from both ends. -/
def trimStr (s : Str) : Str := ((s.dropWhile isWhite).reverse.dropWhile isWhite).reverse

/-- Model of `String.prototype.startsWith`. -/
def startsWithS (s p : Str) : Bool := decide (s.take p.length = p)

/-- Model of `String.prototype.endsWith`. -/
def endsWithS (s p : Str) : Bool := decide (s.drop (s.length - p.length) = p)

/-- Model of `String.prototype.substring`: both indices are clamped to
`[0, length]` and swapped when given in decreasing order. -/
def jsSubstring (s : Str) (a b : Nat) : Str :=
  let n := s.length
  let a2 := min a n
  let b2 := min b n
  (s.take (max a2 b2)).drop (min a2 b2)

/-- Parsed JSON values.  Numbers are kept as a decimal mantissa/exponent pair
`m * 10 ^ e`, which is enough to decide JavaScript truthiness. -/
inductive Json where
  | null : Json
  | bool : Bool → Json
  | num : Int → Int → Json
  | str : Str → Json
  | arr : List Json → Json
  | obj : List (Str × Json) → Json

/-- Property lookup in an object field list.  `JSON.parse` lets a later
duplicate key overwrite an earlier one, so the last binding wins. -/
def fieldLookup : List (Str × Json) → Str → Option Json
  | [], _ => none
  | (k, v) :: rest, key =>
    match fieldLookup rest key with
    | some r => some r
    | none => if k = key then some v else none

/-- Model of JavaScript property access `j.key` on a parsed JSON value:
`none` models `undefined` (also for property access on non-objects). -/
def getField (j : Json) (key : Str) : Option Json :=
  match j with
  | .obj fs => fieldLookup fs key
  | _ => none

/-- JavaScript truthiness of a possibly-undefined JSON value. -/
def truthy : Option Json → Bool
  | none => false
  | some .null => false
  | some (.bool b) => b
  | some (.num m _) => decide (m ≠ 0)
  | some (.str s) => !s.isEmpty
  | some (.arr _) => true
  | some (.obj _) => true

/-- Parse the body of a JSON string literal (after the opening quote), with
fuel.  Returns the decoded characters and the rest of the input.  `\uXXXX`
escapes are outside the model. -/
def parseStringBody : Nat → Str → Option (Str × Str)
  | 0, _ => none
  | _ + 1, [] => none
  | fuel + 1, c :: rest =>
    if c = '"' then some ([], rest)
    else if c = '\\' then
      match rest with
      | [] => none
      | e :: rest2 =>
        let d? : Option Char :=
          if e = '"' then some '"'
          else if e = '\\' then some '\\'
          else if e = '/' then some '/'
          else if e = 'n' then some '\n'
          else if e = 't' then some '\t'
          else if e = 'r' then some '\r'
          else if e = 'b' then some (Char.ofNat 8)
          else if e = 'f' then some (Char.ofNat 12)
          else none
        match d? with
        | none => none
        | some d =>
          match parseStringBody fuel rest2 with
          | some (out, r) => some (d :: out, r)
          | none => none
    else if c.toNat < 32 then none
    else
      match parseStringBody fuel rest with
      | some (out, r) => some (c :: out, r)
      | none => none

/-- Numeric value of a string of decimal digits. -/
def digitsVal (ds : Str) : Nat := ds.foldl (fun a c => a * 10 + (c.toNat - 48)) 0

/-- Parse a JSON number token (leading-zero and empty-part rules included). -/
def parseNum (s : Str) : Option (Json × Str) :=
  let (neg, s1) := match s with
    | '-' :: r => (true, r)
    | _ => (false, s)
  let intd := s1.takeWhile Char.isDigit
  let r1 := s1.dropWhile Char.isDigit
  if intd.isEmpty then none
  else if 2 ≤ intd.length && intd.take 1 = ['0'] then none
  else
    let fr : Str × Str × Bool := match r1 with
      | '.' :: r => (r.takeWhile Char.isDigit, r.dropWhile Char.isDigit, !(r.takeWhile Char.isDigit).isEmpty)
      | _ => ([], r1, true)
    match fr with
    | (fracd, r2, fracOk) =>
      if !fracOk then none
      else
        let ex : Int × Str × Str × Bool := match r2 with
          | e :: r =>
            if e = 'e' || e = 'E' then
              match r with
              | '+' :: r4 => (1, r4.takeWhile Char.isDigit, r4.dropWhile Char.isDigit, !(r4.takeWhile Char.isDigit).isEmpty)
              | '-' :: r4 => (-1, r4.takeWhile Char.isDigit, r4.dropWhile Char.isDigit, !(r4.takeWhile Char.isDigit).isEmpty)
              | _ => (1, r.takeWhile Char.isDigit, r.dropWhile Char.isDigit, !(r.takeWhile Char.isDigit).isEmpty)
            else (1, [], r2, true)
          | [] => (1, [], r2, true)
        match ex with
        | (expSign, expd, r3, expOk) =>
          if !expOk then none
          else
            let mant : Int := (digitsVal (intd ++ fracd) : Int)
            let mant := if neg then -mant else mant
            let e10 : Int := expSign * (digitsVal expd : Int) - (fracd.length : Int)
            some (.num mant e10, r3)

mutual

/-- Parse one JSON value (after skipping whitespace), with fuel. -/
def parseVal : Nat → Str → Option (Json × Str)
  | 0, _ => none
  | fuel + 1, s =>
    match skipWs s with
    | [] => none
    | c :: rest =>
      if c = '"' then
        match parseStringBody (fuel + 1) rest with
        | some (out, r) => some (.str out, r)
        | none => none
      else if c = Char.ofNat 123 then
        match parseObjFields fuel true rest with
        | some (fs, r) => some (.obj fs, r)
        | none => none
      else if c = '[' then
        match parseArrElems fuel true rest with
        | some (xs, r) => some (.arr xs, r)
        | none => none
      else if c = 't' then
        if startsWithS rest ("rue".toList) then some (.bool true, rest.drop 3) else none
      else if c = 'f' then
        if startsWithS rest ("alse".toList) then some (.bool false, rest.drop 4) else none
      else if c = 'n' then
        if startsWithS rest ("ull".toList) then some (.null, rest.drop 3) else none
      else if c = '-' || c.isDigit then parseNum (c :: rest)
      else none

/-- Parse the elements of an array after its opening bracket.  `allowEnd`
rejects a trailing comma before the closing bracket. -/
def parseArrElems : Nat → Bool → Str → Option (List Json × Str)
  | 0, _, _ => none
  | fuel + 1, allowEnd, s =>
    match skipWs s with
    | ']' :: r => if allowEnd then some ([], r) else none
    | s2 =>
      match parseVal fuel s2 with
      | none => none
      | some (j, r) =>
        match skipWs r with
        | ',' :: r2 =>
          match parseArrElems fuel false r2 with
          | some (xs, r3) => some (j :: xs, r3)
          | none => none
        | ']' :: r2 => some ([j], r2)
        | _ => none

/-- Parse the members of an object after its opening brace. -/
def parseObjFields : Nat → Bool → Str → Option (List (Str × Json) × Str)
  | 0, _, _ => none
  | fuel + 1, allowEnd, s =>
    match skipWs s with
    | [] => none
    | c :: r =>
      if c = Char.ofNat 125 then
        if allowEnd then some ([], r) else none
      else if c = '"' then
        match parseStringBody fuel r with
        | none => none
        | some (key, r2) =>
          match skipWs r2 with
          | ':' :: r3 =>
            match parseVal fuel r3 with
            | none => none
            | some (v, r4) =>
              match skipWs r4 with
              | ',' :: r5 =>
                match parseObjFields fuel false r5 with
                | some (fs, r6) => some ((key, v) :: fs, r6)
                | none => none
              | c2 :: r5 =>
                if c2 = Char.ofNat 125 then some ([(key, v)], r5) else none
              | [] => none
          | _ => none
      else none

end

/-- Model of `JSON.parse`: `none` models a thrown `SyntaxError`. -/
def jsonParse (s : Str) : Option Json :=
  match parseVal (2 * s.length + 4) s with
  | some (j, r) => if (skipWs r).isEmpty then some j else none
  | none => none

/-- Join strings with commas (for the model of JavaScript string coercion). -/
def commaJoin : List Str → Str
  | [] => []
  | [x] => x
  | x :: xs => x ++ ',' :: commaJoin xs

/-- Decimal digits of a natural number. -/
def natDigits (n : Nat) : Str := Nat.toDigits 10 n

/-- Decimal rendering of an integer. -/
def intToStr (i : Int) : Str := if i < 0 then '-' :: natDigits i.natAbs else natDigits i.natAbs

/-- Rendering of a JSON number for message text.  JavaScript prints the exact
decimal value; the exponent form used here is an approximation that only
appears inside error-message text, never in data the claims inspect. -/
def numDisplay (m e : Int) : Str := if e = 0 then intToStr m else intToStr m ++ 'e' :: intToStr e

/-- Model of JavaScript string coercion `String(v)` of a parsed JSON value,
used by the handlers only inside template-literal error messages. -/
def jsDisplayJ : Json → Str
  | .null => "null".toList
  | .bool true => "true".toList
  | .bool false => "false".toList
  | .num m e => numDisplay m e
  | .str s => s
  | .arr xs => commaJoin (xs.attach.map fun x => jsDisplayJ x.1)
  | .obj _ => "[object Object]".toList
termination_by j => sizeOf j
decreasing_by
  simp_wf
  have := List.sizeOf_lt_of_mem x.2
  omega

/-- String coercion of a possibly-undefined value: `String(undefined)`. -/
def jsDisplay : Option Json → Str
  | none => "undefined".toList
  | some j => jsDisplayJ j

/-- The leading marker of a fenced code block with a json language tag. -/
def fenceJson : Str := "```json".toList

/-- A bare code-fence marker. -/
def fence3 : Str := "```".toList

/-- The fence-stripping step shared by `analyzeArticle` and `fetchNews` in
`src/functions/analyze.ts` (lines 89-94 and 186-191) and by `fetchLatestNews`
in `src/services/geminiService.ts` (lines 328-333): trim, then if the text
starts with a fence marker take `substring(7, length - 3)` (resp.
`substring(3, length - 3)`) and trim again. -/
def stripFences (raw : Str) : Str :=
  let t := trimStr raw
  if startsWithS t fenceJson then trimStr (jsSubstring t 7 (t.length - 3))
  else if startsWithS t fence3 then trimStr (jsSubstring t 3 (t.length - 3))
  else t

/-- Modelled from the spec words of claim C4, for comparison with
`stripFences`: remove exactly the leading fence marker, remove exactly a
trailing bare fence when present, and nothing else. -/
def stripFencesClaimed (raw : Str) : Str :=
  let t := trimStr raw
  if startsWithS t fenceJson then
    let core := t.drop 7
    if endsWithS core fence3 then core.take (core.length - 3) else core
  else if startsWithS t fence3 then
    let core := t.drop 3
    if endsWithS core fence3 then core.take (core.length - 3) else core
  else t

/-- Field name `action`. -/
def kAction : Str := "action".toList

/-- Field name `payload`. -/
def kPayload : Str := "payload".toList

/-- Field name `articleUrl`. -/
def kArticleUrl : Str := "articleUrl".toList

/-- Field name `language`. -/
def kLanguage : Str := "language".toList

/-- Field name `analysis`. -/
def kAnalysis : Str := "analysis".toList

/-- Field name `targetLanguage`. -/
def kTargetLanguage : Str := "targetLanguage".toList

/-- Field name `texts`. -/
def kTexts : Str := "texts".toList

/-- Field name `category`. -/
def kCategory : Str := "category".toList

/-- Field name `articleTitle`. -/
def kArticleTitle : Str := "articleTitle".toList

/-- Field name `neutralSummary`. -/
def kNeutralSummary : Str := "neutralSummary".toList

/-- Field name `factOnlySummary`. -/
def kFactOnlySummary : Str := "factOnlySummary".toList

/-- Field name `eli10Summary`. -/
def kEli10Summary : Str := "eli10Summary".toList

/-- Field name `biasAnalysis`. -/
def kBiasAnalysis : Str := "biasAnalysis".toList

/-- Field name `tone`. -/
def kTone : Str := "tone".toList

/-- Field name `favoritism`. -/
def kFavoritism : Str := "favoritism".toList

/-- Field name `chargedLanguage`. -/
def kChargedLanguage : Str := "chargedLanguage".toList

/-- Field name `missingPerspectives`. -/
def kMissingPerspectives : Str := "missingPerspectives".toList

/-- Field name `politicalLeaning`. -/
def kPoliticalLeaning : Str := "politicalLeaning".toList

/-- Field name `classification`. -/
def kClassification : Str := "classification".toList

/-- Field name `finding`. -/
def kFinding : Str := "finding".toList

/-- Field name `evidence`. -/
def kEvidence : Str := "evidence".toList

/-- Field name `title`. -/
def kTitle : Str := "title".toList

/-- Field name `source`. -/
def kSource : Str := "source".toList

/-- Field name `url`. -/
def kUrl : Str := "url".toList

/-- Field name `error`. -/
def kError : Str := "error".toList

/-- The HTTP method string `POST`. -/
def sPOST : Str := "POST".toList

/-- Action discriminator `analyze` (analyze.ts handler). -/
def sAnalyze : Str := "analyze".toList

/-- Action discriminator `translate` (analyze.ts handler). -/
def sTranslate : Str := "translate".toList

/-- Action discriminator `translateTexts`. -/
def sTranslateTexts : Str := "translateTexts".toList

/-- Action discriminator `fetchNews` (analyze.ts handler). -/
def sFetchNews : Str := "fetchNews".toList

/-- Action discriminator `analyzeNewsArticle` (gemini-proxy handler). -/
def sAnalyzeNewsArticle : Str := "analyzeNewsArticle".toList

/-- Action discriminator `translateAnalysisResult` (gemini-proxy handler). -/
def sTranslateAnalysisResult : Str := "translateAnalysisResult".toList

/-- Action discriminator `fetchLatestNews` (gemini-proxy handler). -/
def sFetchLatestNews : Str := "fetchLatestNews".toList

/-- The default body `JSON.parse(event.body || '\x7b\x7d')` falls back to. -/
def emptyObjStr : Str := "\x7b\x7d".toList

/-- Message of the engine-raised `SyntaxError` of `JSON.parse`; the exact text
is engine-specific, modelled here by one fixed non-empty string. -/
def mJsonParseError : Str := "Unexpected token in JSON".toList

/-- Handler message for a non-POST request. -/
def mMethodNotAllowed : Str := "Method Not Allowed".toList

/-- analyze.ts line 219. -/
def mMissingAnalyze : Str := "Missing parameters for \x27analyze\x27 action".toList

/-- analyze.ts line 225. -/
def mMissingTranslate : Str := "Missing parameters for \x27translate\x27 action".toList

/-- analyze.ts line 231. -/
def mMissingTranslateTexts : Str := "Missing parameters for \x27translateTexts\x27 action".toList

/-- analyze.ts line 237. -/
def mMissingFetchNews : Str := "Missing parameters for \x27fetchNews\x27 action".toList

/-- analyze.ts line 242, prefix of the template literal. -/
def mInvalidActionA : Str := "Invalid action specified: ".toList

/-- analyze.ts line 106: the catch around parse-and-check replaces every inner
failure by this message. -/
def mCouldNotParseAnalysis : Str := "Could not parse the analysis from the AI model.".toList

/-- analyze.ts line 198. -/
def mInvalidNewsStructure : Str := "Invalid JSON structure received from API for news fetch.".toList

/-- analyze.ts line 6, thrown at module scope when API_KEY is unset. -/
def mKeyMissingFn : Str := "API_KEY environment variable not set in Netlify build settings".toList

/-- Incoming HTTP event, the parts the handlers read. -/
structure HEvent where
  httpMethod : Str
  body : Option Str

/-- Handler HTTP response.  The JSON-serialized body is modelled by the `Json`
value it serializes (`JSON.stringify` is elided). -/
structure HResponse where
  statusCode : Nat
  body : Json

/-- The 500-response body `JSON.stringify(\x7b error: msg \x7d)`. -/
def errBody (m : Str) : Json := .obj [(kError, .str m)]

/-- Strict-equality comparison of a switch scrutinee with a string literal. -/
def isActionStr (a : Option Json) (s : Str) : Bool :=
  match a with
  | some (.str t) => t = s
  | _ => false

namespace Fn

/-- `analyzeArticle` of src/functions/analyze.ts (lines 57-108).  The prompt
built from `articleUrl`/`language` only shapes the LLM call, whose outcome is
the oracle `o`.  The `await` is outside the try block, so a rejected call
propagates its own message; the try wraps `JSON.parse` and the required-key
truthiness check, and its catch replaces any inner failure (parse error or the
explicit invalid-structure throw) by `mCouldNotParseAnalysis`. -/
def analyzeArticle (articleUrl language : Str) (o : Except Str Str) : Except Str Json :=
  match o with
  | .error e => .error e
  | .ok rawText =>
    let text := stripFences rawText
    match jsonParse text with
    | none => .error mCouldNotParseAnalysis
    | some j =>
      if truthy (getField j kArticleTitle) && truthy (getField j kNeutralSummary)
          && truthy (getField j kBiasAnalysis) then
        .ok j
      else .error mCouldNotParseAnalysis

/-- `translateAnalysis` of src/functions/analyze.ts (lines 110-135): trim the
response text, `JSON.parse` it and return the result with no validation.  A
parse failure propagates to the handler as the engine error. -/
def translateAnalysis (analysis : Json) (targetLanguage : Str) (o : Except Str Str) :
    Except Str Json :=
  match o with
  | .error e => .error e
  | .ok txt =>
    match jsonParse (trimStr txt) with
    | some j => .ok j
    | none => .error mJsonParseError

/-- `translateBatchTexts` of src/functions/analyze.ts (lines 137-164). -/
def translateBatchTexts (texts : Option Json) (targetLanguage : Str) (o : Except Str Str) :
    Except Str Json :=
  match o with
  | .error e => .error e
  | .ok txt =>
    match jsonParse (trimStr txt) with
    | some j => .ok j
    | none => .error mJsonParseError

/-- `fetchNews` of src/functions/analyze.ts (lines 166-200): strip fences,
parse (failure propagates), then require an array whose every element has
truthy `title`, `source` and `url`.  (Property access on a `null` element
raises a TypeError in JavaScript; the model reports the invalid-structure
message instead — same status path, different message text.) -/
def fetchNews (category : Str) (o : Except Str Str) : Except Str Json :=
  match o with
  | .error e => .error e
  | .ok txt =>
    match jsonParse (stripFences txt) with
    | none => .error mJsonParseError
    | some j =>
      match j with
      | .arr items =>
        if items.all (fun it =>
            truthy (getField it kTitle) && truthy (getField it kSource)
              && truthy (getField it kUrl)) then
          .ok (.arr items)
        else .error mInvalidNewsStructure
      | _ => .error mInvalidNewsStructure

/-- The body of the handler try-block of src/functions/analyze.ts (lines
210-243): parse the body, read `action`, check required fields by truthiness,
dispatch.  The second component counts `generateContent` calls made.
(Destructuring a `null` body raises a TypeError in JavaScript; the model takes
the default branch instead — same 500 status, different message text.) -/
def dispatch (o : Except Str Str) (bodyStr : Str) : Except Str Json × Nat :=
  match jsonParse bodyStr with
  | none => (.error mJsonParseError, 0)
  | some body =>
    let action := getField body kAction
    if isActionStr action sAnalyze then
      if truthy (getField body kArticleUrl) && truthy (getField body kLanguage) then
        (analyzeArticle (jsDisplay (getField body kArticleUrl))
          (jsDisplay (getField body kLanguage)) o, 1)
      else (.error mMissingAnalyze, 0)
    else if isActionStr action sTranslate then
      if truthy (getField body kAnalysis) && truthy (getField body kTargetLanguage) then
        (translateAnalysis ((getField body kAnalysis).getD .null)
          (jsDisplay (getField body kTargetLanguage)) o, 1)
      else (.error mMissingTranslate, 0)
    else if isActionStr action sTranslateTexts then
      if truthy (getField body kTexts) && truthy (getField body kTargetLanguage) then
        (translateBatchTexts (getField body kTexts)
          (jsDisplay (getField body kTargetLanguage)) o, 1)
      else (.error mMissingTranslateTexts, 0)
    else if isActionStr action sFetchNews then
      if truthy (getField body kCategory) then
        (fetchNews (jsDisplay (getField body kCategory)) o, 1)
      else (.error mMissingFetchNews, 0)
    else (.error (mInvalidActionA ++ jsDisplay action), 0)

/-- The exported `handler` of src/functions/analyze.ts (lines 205-258), paired
with the number of LLM calls the invocation made. -/
def handler (o : Except Str Str) (ev : HEvent) : HResponse × Nat :=
  if ev.httpMethod ≠ sPOST then (⟨405, errBody mMethodNotAllowed⟩, 0)
  else
    match dispatch o (ev.body.getD emptyObjStr) with
    | (.ok v, n) => (⟨200, v⟩, n)
    | (.error m, n) => (⟨500, errBody m⟩, n)

/-- JavaScript truthiness of `process.env.API_KEY`. -/
def truthyEnv : Option Str → Bool
  | none => false
  | some s => !s.isEmpty

/-- Module-scope initialization of src/functions/analyze.ts (lines 5-9): throw
when `process.env.API_KEY` is falsy. -/
def moduleInit (apiKey : Option Str) : Except Str Unit :=
  if truthyEnv apiKey then .ok () else .error mKeyMissingFn

/-- A cold start followed by one invocation: the handler only runs if
module-scope initialization succeeded. -/
def coldStart (apiKey : Option Str) (o : Except Str Str) (ev : HEvent) :
    Except Str (HResponse × Nat) :=
  match moduleInit apiKey with
  | .error e => .error e
  | .ok _ => .ok (handler o ev)

end Fn

namespace Proxy

/-- types.ts line 89: thrown by `getAiClient` when API_KEY is falsy. -/
def mKeyMissing : Str := "API_KEY environment variable not set. Please ensure it is configured in Netlify.".toList

/-- types.ts line 160. -/
def mContentFail : Str := "Failed to retrieve article content from the URL.".toList

/-- types.ts line 169. -/
def mInsufficientContent : Str := "Could not retrieve sufficient article content from the provided URL. It might be behind a paywall or inaccessible.".toList

/-- types.ts line 218, prefix of the wrapped analysis failure. -/
def mAnalysisFailA : Str := "Failed to get analysis from the AI model: ".toList

/-- types.ts line 213, the inner invalid-structure throw (gets wrapped). -/
def mInvalidStruct : Str := "Invalid JSON structure received from AI for article analysis.".toList

/-- types.ts line 252, prefix of the wrapped translation failure. -/
def mTranslateFailA : Str := "Failed to translate the analysis: ".toList

/-- types.ts line 288. -/
def mTranslateTextsFail : Str := "Failed to translate texts.".toList

/-- types.ts line 331. -/
def mFetchNewsFail : Str := "Failed to fetch latest news.".toList

/-- types.ts line 345. -/
def mMissingAction : Str := "Missing action".toList

/-- types.ts line 353. -/
def mMissingAnalyzeB : Str := "Missing articleUrl or language for analyzeNewsArticle".toList

/-- types.ts line 360. -/
def mMissingTranslateB : Str := "Missing analysis or targetLanguage for translateAnalysisResult".toList

/-- types.ts line 367. -/
def mMissingTranslateTextsB : Str := "Missing texts or targetLanguage for translateTexts".toList

/-- types.ts line 374. -/
def mMissingFetchNewsB : Str := "Missing category for fetchLatestNews".toList

/-- types.ts line 380, prefix of the template literal. -/
def mUnknownActionB : Str := "Unknown action: ".toList

/-- `getAiClient` of types.ts (lines 84-93): lazily initialized; the only
failure is a falsy API_KEY.  Crucially there is NO module-scope key check in
this variant — module initialization (`let ai = null`) always succeeds. -/
def getAiClient (apiKey : Option Str) : Except Str Unit :=
  if Fn.truthyEnv apiKey then .ok () else .error mKeyMissing

/-- `getArticleContent` of types.ts (lines 140-162): `getAiClient` is called
before the try block (so a missing key propagates raw); the catch wraps any
`generateContent` failure into `mContentFail`.  Second component: number of
`generateContent` calls. -/
def getArticleContent (apiKey : Option Str) (articleUrl : Str) (o1 : Except Str Str) :
    Except Str Str × Nat :=
  match getAiClient apiKey with
  | .error e => (.error e, 0)
  | .ok _ =>
    match o1 with
    | .ok t => (.ok t, 1)
    | .error _ => (.error mContentFail, 1)

/-- `analyzeNewsArticle` of types.ts (lines 165-222): fetch content (oracle
`o1`), reject short content, then analyze (oracle `o2`) in JSON mode; the try
around the second call wraps every failure (rejection, parse error, or the
missing-key structure check) with the `mAnalysisFailA` prefix. -/
def analyzeNewsArticle (apiKey : Option Str) (articleUrl language : Str)
    (o1 o2 : Except Str Str) : Except Str Json × Nat :=
  match getArticleContent apiKey articleUrl o1 with
  | (.error e, n) => (.error e, n)
  | (.ok content, n) =>
    if content.isEmpty || (trimStr content).length < 150 then
      (.error mInsufficientContent, n)
    else
      match getAiClient apiKey with
      | .error e => (.error e, n)
      | .ok _ =>
        match o2 with
        | .error e => (.error (mAnalysisFailA ++ e), n + 1)
        | .ok txt =>
          match jsonParse (trimStr txt) with
          | none => (.error (mAnalysisFailA ++ mJsonParseError), n + 1)
          | some j =>
            if truthy (getField j kArticleTitle) && truthy (getField j kNeutralSummary)
                && truthy (getField j kBiasAnalysis) then
              (.ok j, n + 1)
            else (.error (mAnalysisFailA ++ mInvalidStruct), n + 1)

/-- `translateAnalysisResult` of types.ts (lines 224-256): `getAiClient`
outside the try; the catch wraps failures with the `mTranslateFailA` prefix. -/
def translateAnalysisResult (apiKey : Option Str) (analysis : Json)
    (targetLanguage : Str) (o : Except Str Str) : Except Str Json × Nat :=
  match getAiClient apiKey with
  | .error e => (.error e, 0)
  | .ok _ =>
    match o with
    | .error e => (.error (mTranslateFailA ++ e), 1)
    | .ok txt =>
      match jsonParse (trimStr txt) with
      | none => (.error (mTranslateFailA ++ mJsonParseError), 1)
      | some j => (.ok j, 1)

/-- `translateTexts` of types.ts (lines 258-290): the catch replaces every
failure by the fixed `mTranslateTextsFail` message. -/
def translateTexts (apiKey : Option Str) (texts : Option Json) (targetLanguage : Str)
    (o : Except Str Str) : Except Str Json × Nat :=
  match getAiClient apiKey with
  | .error e => (.error e, 0)
  | .ok _ =>
    match o with
    | .error _ => (.error mTranslateTextsFail, 1)
    | .ok txt =>
      match jsonParse (trimStr txt) with
      | none => (.error mTranslateTextsFail, 1)
      | some j => (.ok j, 1)

/-- `fetchLatestNews` of types.ts (lines 292-333): `getAiClient` outside the
try; inside it, fence stripping, parse and the array/required-key check; the
catch replaces every failure (including the inner invalid-structure throw) by
`mFetchNewsFail`. -/
def fetchLatestNews (apiKey : Option Str) (category : Str) (o : Except Str Str) :
    Except Str Json × Nat :=
  match getAiClient apiKey with
  | .error e => (.error e, 0)
  | .ok _ =>
    match o with
    | .error _ => (.error mFetchNewsFail, 1)
    | .ok txt =>
      match jsonParse (stripFences txt) with
      | none => (.error mFetchNewsFail, 1)
      | some j =>
        match j with
        | .arr items =>
          if items.all (fun it =>
              truthy (getField it kTitle) && truthy (getField it kSource)
                && truthy (getField it kUrl)) then
            (.ok (.arr items), 1)
          else (.error mFetchNewsFail, 1)
        | _ => (.error mFetchNewsFail, 1)

/-- The optional-chaining payload access `payload?.field` of the types.ts
handler: `undefined` when the body has no (object) payload. -/
def pfield (body : Json) (f : Str) : Option Json :=
  match getField body kPayload with
  | some p => getField p f
  | none => none

/-- The try-block body of the types.ts handler (lines 341-387): parse the
body, require a truthy `action`, check `payload?.field` truthiness, dispatch. -/
def dispatch (apiKey : Option Str) (o1 o2 : Except Str Str) (bodyStr : Str) :
    Except Str Json × Nat :=
  match jsonParse bodyStr with
  | none => (.error mJsonParseError, 0)
  | some body =>
    let action := getField body kAction
    if !truthy action then (.error mMissingAction, 0)
    else
      let pget := fun (f : Str) => pfield body f
      if isActionStr action sAnalyzeNewsArticle then
        if truthy (pget kArticleUrl) && truthy (pget kLanguage) then
          analyzeNewsArticle apiKey (jsDisplay (pget kArticleUrl))
            (jsDisplay (pget kLanguage)) o1 o2
        else (.error mMissingAnalyzeB, 0)
      else if isActionStr action sTranslateAnalysisResult then
        if truthy (pget kAnalysis) && truthy (pget kTargetLanguage) then
          translateAnalysisResult apiKey ((pget kAnalysis).getD .null)
            (jsDisplay (pget kTargetLanguage)) o2
        else (.error mMissingTranslateB, 0)
      else if isActionStr action sTranslateTexts then
        if truthy (pget kTexts) && truthy (pget kTargetLanguage) then
          translateTexts apiKey (pget kTexts) (jsDisplay (pget kTargetLanguage)) o2
        else (.error mMissingTranslateTextsB, 0)
      else if isActionStr action sFetchLatestNews then
        if truthy (pget kCategory) then
          fetchLatestNews apiKey (jsDisplay (pget kCategory)) o2
        else (.error mMissingFetchNewsB, 0)
      else (.error (mUnknownActionB ++ jsDisplay action), 0)

/-- The gemini-proxy `handler` of types.ts (lines 336-399).  Its 405 body is
the plain string `Method Not Allowed` (not a JSON object). -/
def handler (apiKey : Option Str) (o1 o2 : Except Str Str) (ev : HEvent) :
    HResponse × Nat :=
  if ev.httpMethod ≠ sPOST then (⟨405, .str mMethodNotAllowed⟩, 0)
  else
    match dispatch apiKey o1 o2 (ev.body.getD emptyObjStr) with
    | (.ok v, n) => (⟨200, v⟩, n)
    | (.error m, n) => (⟨500, errBody m⟩, n)

end Proxy

/-- Whether a headline list came from the live API or the hardcoded mock. -/
inductive NewsSource where
  | live : NewsSource
  | mock : NewsSource
deriving DecidableEq

namespace Client

/-- The hardcoded static headline list of the direct-client `fetchLatestNews`
(src/services/geminiService.ts lines 345-351). -/
def mockNews : List Json :=
  [ .obj [(kTitle, .str "Global Summit Addresses Climate Change Urgently".toList),
      (kSource, .str "Associated Press".toList), (kUrl, .str "#".toList)],
    .obj [(kTitle, .str "New Breakthrough in AI Could Revolutionize Medicine".toList),
      (kSource, .str "Reuters".toList), (kUrl, .str "#".toList)],
    .obj [(kTitle, .str "Stock Markets React to New Economic Policies".toList),
      (kSource, .str "The Wall Street Journal".toList), (kUrl, .str "#".toList)],
    .obj [(kTitle, .str "Archaeologists Uncover Lost City in the Amazon".toList),
      (kSource, .str "National Geographic".toList), (kUrl, .str "#".toList)],
    .obj [(kTitle, .str "Space Mission Successfully Launches to Explore Jupiter's Moons".toList),
      (kSource, .str "BBC News".toList), (kUrl, .str "#".toList)] ]

/-- The direct-client `fetchLatestNews` (src/services/geminiService.ts lines
306-354): on ANY failure inside the try (rejected call, parse error, or the
invalid-structure throw) the catch substitutes the hardcoded `mockNews` list
tagged `mock`; a successfully parsed valid array — including the empty array,
for which `every` is vacuously true — is returned tagged `live`. -/
def fetchLatestNews (o : Except Str Str) : List Json × NewsSource :=
  match o with
  | .error _ => (mockNews, .mock)
  | .ok txt =>
    match jsonParse (stripFences txt) with
    | none => (mockNews, .mock)
    | some j =>
      match j with
      | .arr items =>
        if items.all (fun it =>
            truthy (getField it kTitle) && truthy (getField it kSource)
              && truthy (getField it kUrl)) then
          (items, .live)
        else (mockNews, .mock)
      | _ => (mockNews, .mock)

/-- The client `translateTexts` (both variants: src/services/geminiService.ts
lines 43-54 and 268-304): on ANY failure the catch returns the identity
mapping of the input texts — no error ever reaches the caller. -/
def translateTexts (texts : List Str) (o : Except Str Str) : Json :=
  match o with
  | .error _ => .obj (texts.map fun t => (t, .str t))
  | .ok txt =>
    match jsonParse (trimStr txt) with
    | some j => j
    | none => .obj (texts.map fun t => (t, .str t))

/-- The client `analyzeNewsArticle` wrapper (src/services/geminiService.ts
lines 19-29) over the outcome `o` of the API call: a failure is re-thrown with
its message embedded after a fixed prefix; nothing is substituted. -/
def analyzeNewsArticle (o : Except Str Json) : Except Str Json :=
  match o with
  | .ok v => .ok v
  | .error e => .error ("Failed to get analysis from the AI model: ".toList ++ e)

/-- The client `translateAnalysisResult` wrapper (src/services/geminiService.ts
lines 31-41): failures are re-thrown with their message embedded; nothing is
substituted. -/
def translateAnalysisResult (o : Except Str Json) : Except Str Json :=
  match o with
  | .ok v => .ok v
  | .error e => .error ("Failed to translate the analysis: ".toList ++ e)

end Client

namespace LatestNews

/-- The state of the `LatestNews` component that `getNews` touches
(src/unnamed/part_001 lines 13-17). -/
structure NewsState where
  headlines : List Json
  isLoading : Bool
  error : Option Str
  isFallback : Bool

/-- Message prefix of `Could not fetch recent $\x7bcategoryName\x7d news at this time.` -/
def mCouldNotFetchA : Str := "Could not fetch recent ".toList

/-- Message suffix of the could-not-fetch error. -/
def mCouldNotFetchB : Str := " news at this time.".toList

/-- One run of the `getNews` effect of the `LatestNews` component
(src/unnamed/part_001 lines 41-68) given the result of
`Client.fetchLatestNews`.  `categoryName` is the already-lowercased display
name of the active category.  Zero headlines set the error message and leave
`headlines` and `isFallback` untouched; otherwise the headlines are stored and
`isFallback` records whether the service fell back to the mock list. -/
def getNews (categoryName : Str) (fetched : List Json × NewsSource) (st : NewsState) :
    NewsState :=
  let st1 : NewsState := { st with isLoading := true, error := none, isFallback := false }
  match fetched with
  | (news, source) =>
    if news.length = 0 then
      { st1 with
        error := some (mCouldNotFetchA ++ categoryName ++ mCouldNotFetchB)
        isLoading := false }
    else
      { st1 with headlines := news, isFallback := source = .mock, isLoading := false }

end LatestNews

/-- `BiasPoint` of src/types.ts. -/
structure BiasPoint where
  finding : Str
  evidence : List Str
deriving DecidableEq

/-- `TonePoint` of src/types.ts.  The TypeScript type restricts
`classification` to the union 'Positive' | 'Negative' | 'Neutral'; the model
carries the string. -/
structure TonePoint where
  classification : Str
  finding : Str
  evidence : List Str
deriving DecidableEq

/-- `BiasAnalysisDetails` of src/types.ts. -/
structure BiasAnalysisDetails where
  tone : TonePoint
  favoritism : BiasPoint
  chargedLanguage : BiasPoint
  missingPerspectives : BiasPoint
  politicalLeaning : BiasPoint
deriving DecidableEq

/-- `AnalysisResult` of src/types.ts. -/
structure AnalysisResult where
  articleTitle : Str
  neutralSummary : Str
  factOnlySummary : Str
  eli10Summary : Str
  biasAnalysis : BiasAnalysisDetails
deriving DecidableEq

/-- `HistoryItem` of src/types.ts: the id is the URL. -/
structure HistoryItem where
  id : Str
  url : Str
  title : Str
  analysis : AnalysisResult
  timestamp : Int
deriving DecidableEq

/-- JSON form of a `BiasPoint` (the shape `JSON.stringify` produces). -/
def biasPointToJson (b : BiasPoint) : Json :=
  .obj [(kFinding, .str b.finding), (kEvidence, .arr (b.evidence.map Json.str))]

/-- JSON form of a `TonePoint`. -/
def tonePointToJson (t : TonePoint) : Json :=
  .obj [(kClassification, .str t.classification), (kFinding, .str t.finding),
    (kEvidence, .arr (t.evidence.map Json.str))]

/-- JSON form of a `BiasAnalysisDetails`. -/
def biasAnalysisToJson (d : BiasAnalysisDetails) : Json :=
  .obj [(kTone, tonePointToJson d.tone), (kFavoritism, biasPointToJson d.favoritism),
    (kChargedLanguage, biasPointToJson d.chargedLanguage),
    (kMissingPerspectives, biasPointToJson d.missingPerspectives),
    (kPoliticalLeaning, biasPointToJson d.politicalLeaning)]

/-- JSON form of an `AnalysisResult`, as `JSON.stringify(analysis)` embeds it
into the translation prompt. -/
def analysisToJson (a : AnalysisResult) : Json :=
  .obj [(kArticleTitle, .str a.articleTitle), (kNeutralSummary, .str a.neutralSummary),
    (kFactOnlySummary, .str a.factOnlySummary), (kEli10Summary, .str a.eli10Summary),
    (kBiasAnalysis, biasAnalysisToJson a.biasAnalysis)]

/-- Set equality of two key lists (ignoring order and multiplicity). -/
def keySetEq (ks req : List Str) : Bool :=
  req.all (fun k => ks.contains k) && ks.all (fun k => req.contains k)

/-- The top-level keys of a JSON object. -/
def objKeys : Json → List Str
  | .obj fs => fs.map (fun f => f.1)
  | _ => []

/-- Key-set shape of a serialized `BiasPoint`. -/
def biasPointShape (j : Json) : Bool :=
  match j with
  | .obj _ => keySetEq (objKeys j) [kFinding, kEvidence]
  | _ => false

/-- Key-set shape of a serialized `TonePoint`. -/
def toneShape (j : Json) : Bool :=
  match j with
  | .obj _ => keySetEq (objKeys j) [kClassification, kFinding, kEvidence]
  | _ => false

/-- Key-set shape of a serialized `BiasAnalysisDetails`, at every nesting
level. -/
def biasAnalysisShape (j : Json) : Bool :=
  match j with
  | .obj _ =>
    keySetEq (objKeys j)
        [kTone, kFavoritism, kChargedLanguage, kMissingPerspectives, kPoliticalLeaning]
      && (match getField j kTone with | some t => toneShape t | none => false)
      && (match getField j kFavoritism with | some b => biasPointShape b | none => false)
      && (match getField j kChargedLanguage with | some b => biasPointShape b | none => false)
      && (match getField j kMissingPerspectives with | some b => biasPointShape b | none => false)
      && (match getField j kPoliticalLeaning with | some b => biasPointShape b | none => false)
  | _ => false

/-- Key-set shape of a serialized `AnalysisResult`, at every nesting level:
exactly the keys of the TypeScript interfaces, nothing added, removed or
renamed. -/
def analysisShape (j : Json) : Bool :=
  match j with
  | .obj _ =>
    keySetEq (objKeys j)
        [kArticleTitle, kNeutralSummary, kFactOnlySummary, kEli10Summary, kBiasAnalysis]
      && (match getField j kBiasAnalysis with | some b => biasAnalysisShape b | none => false)
  | _ => false

/-- The value at path `biasAnalysis.tone.classification`. -/
def classificationOf (j : Json) : Option Json :=
  (getField j kBiasAnalysis).bind fun b =>
    (getField b kTone).bind fun t => getField t kClassification

namespace App

/-- The pieces of the `App` component state (src/unnamed/part_003 lines 13-19)
that the three history-mutating callbacks touch. -/
structure AppState where
  analysisResult : Option AnalysisResult
  isLoading : Bool
  isReconverting : Bool
  error : Option Str
  history : List HistoryItem
  activeHistoryId : Option Str
  language : Str
deriving DecidableEq

/-- Error prefix of `handleUrlSubmit` (part_003 line 75). -/
def mSubmitFailA : Str := "An error occurred: ".toList

/-- Error suffix of `handleUrlSubmit`. -/
def mSubmitFailB : Str := ". Please check the URL or try again later.".toList

/-- Error prefix of `handleReconvert` (part_003 line 122). -/
def mReconvertFailA : Str := "Failed to translate analysis: ".toList

/-- Error suffix of `handleReconvert`. -/
def mReconvertFailB : Str := ". Please try again.".toList

/-- `handleUrlSubmit` of src/unnamed/part_003 (lines 46-83).  The oracle is
the outcome of `analyzeNewsArticle`; the second component counts how many
times that operation was invoked.  A history entry whose `url` matches is
returned from the cache with no call; otherwise a successful analysis is
prepended (dropping any stale entry with the same id) and a failure sets the
error message and clears the active id. -/
def handleUrlSubmit (now : Int) (o : Except Str AnalysisResult) (url : Str)
    (st : AppState) : AppState × Nat :=
  let st1 : AppState :=
    { st with
      isLoading := true
      error := none
      analysisResult := none
      activeHistoryId := some url }
  match st.history.find? (fun item => item.url = url) with
  | some item => ({ st1 with analysisResult := some item.analysis, isLoading := false }, 0)
  | none =>
    match o with
    | .ok result =>
      let newItem : HistoryItem :=
        { id := url, url := url, title := result.articleTitle, analysis := result,
          timestamp := now }
      ({ st1 with
          analysisResult := some result
          history := newItem :: st.history.filter (fun item => item.id ≠ url)
          isLoading := false }, 1)
    | .error e =>
      ({ st1 with
          error := some (mSubmitFailA ++ e ++ mSubmitFailB)
          activeHistoryId := none
          isLoading := false }, 1)

/-- `handleClearHistory` of src/unnamed/part_003 (lines 95-99). -/
def handleClearHistory (st : AppState) : AppState :=
  { st with history := [], analysisResult := none, activeHistoryId := none }

/-- `handleReconvert` of src/unnamed/part_003 (lines 101-129): a no-op unless
both an analysis result and an active history id are present; on success only
the entry whose id equals the active id has its `analysis` replaced. -/
def handleReconvert (o : Except Str AnalysisResult) (newLanguage : Str)
    (st : AppState) : AppState :=
  match st.analysisResult, st.activeHistoryId with
  | some _, some activeId =>
    let st1 : AppState :=
      { st with
        error := none
        language := newLanguage
        isReconverting := false }
    match o with
    | .ok translatedResult =>
      { st1 with
        analysisResult := some translatedResult
        history := st1.history.map (fun item =>
          if item.id = activeId then { item with analysis := translatedResult } else item) }
    | .error e =>
      { st1 with error := some (mReconvertFailA ++ e ++ mReconvertFailB) }
  | _, _ => st

end App

/-- Claim C1: for every incoming HTTP event, the serverless handler returns
status 405 when the method is not POST, status 200 with a JSON body when the
dispatched operation succeeds, and status 500 with a body containing the
error's message when any exception is thrown; no other status code is ever
produced.  Stated for the `Fn` handler (src/functions/analyze.ts) in full, and
for the `Proxy` handler (src/types.ts) in its status-code part. -/
theorem handler_status_codes (o : Except Str Str) (ev : HEvent) :
    ((Fn.handler o ev).1.statusCode = 200 ∨ (Fn.handler o ev).1.statusCode = 405
      ∨ (Fn.handler o ev).1.statusCode = 500)
    ∧ ((Fn.handler o ev).1.statusCode = 405 ↔ ev.httpMethod ≠ sPOST)
    ∧ (∀ v, ev.httpMethod = sPOST →
        (Fn.dispatch o (ev.body.getD emptyObjStr)).1 = .ok v →
        (Fn.handler o ev).1 = ⟨200, v⟩)
    ∧ (∀ m, ev.httpMethod = sPOST →
        (Fn.dispatch o (ev.body.getD emptyObjStr)).1 = .error m →
        (Fn.handler o ev).1 = ⟨500, errBody m⟩)
    ∧ (∀ apiKey o1 o2,
        ((Proxy.handler apiKey o1 o2 ev).1.statusCode = 200
          ∨ (Proxy.handler apiKey o1 o2 ev).1.statusCode = 405
          ∨ (Proxy.handler apiKey o1 o2 ev).1.statusCode = 500)
        ∧ ((Proxy.handler apiKey o1 o2 ev).1.statusCode = 405 ↔ ev.httpMethod ≠ sPOST)) := by
  by_cases hm : ev.httpMethod = sPOST
  · rcases hd : Fn.dispatch o (ev.body.getD emptyObjStr) with ⟨res, n⟩
    refine ⟨?_, ?_, ?_, ?_, ?_⟩
    · cases res <;> simp [Fn.handler, hm, hd]
    · cases res <;> simp [Fn.handler, hm, hd]
    · intro v _ hv
      simp only [hd] at hv
      subst hv
      simp [Fn.handler, hm, hd]
    · intro m _ hv
      simp only [hd] at hv
      subst hv
      simp [Fn.handler, hm, hd]
    · intro apiKey o1 o2
      rcases hb : Proxy.dispatch apiKey o1 o2 (ev.body.getD emptyObjStr) with ⟨resb, nb⟩
      cases resb <;> simp [Proxy.handler, hm, hb]
  · refine ⟨?_, ?_, ?_, ?_, ?_⟩
    · simp [Fn.handler, hm]
    · simp [Fn.handler, hm]
    · intro v hv; exact absurd hv hm
    · intro m hv; exact absurd hv hm
    · intro apiKey o1 o2
      constructor
      · simp [Proxy.handler, hm]
      · simp [Proxy.handler, hm]

/-- Witness for C1: a concrete non-POST event gets the 405 status. -/
theorem handler_status_codes_witness :
    (Fn.handler (.ok []) ⟨"GET".toList, none⟩).1.statusCode = 405 :=
  (handler_status_codes (.ok []) ⟨"GET".toList, none⟩).2.1.mpr (by decide)

/-- Helper: a POST request whose dispatch fails yields the 500 response. -/
theorem handler_error_of_dispatch (o : Except Str Str) (ev : HEvent) (m : Str)
    (hm : ev.httpMethod = sPOST)
    (hd : (Fn.dispatch o (ev.body.getD emptyObjStr)).1 = .error m) :
    (Fn.handler o ev).1 = ⟨500, errBody m⟩ := by
  rcases he : Fn.dispatch o (ev.body.getD emptyObjStr) with ⟨res, n⟩
  have hres : res = .error m := by rw [he] at hd; exact hd
  subst hres
  simp [Fn.handler, hm, he]

/-- Helper: a POST request whose dispatch succeeds yields the 200 response. -/
theorem handler_ok_of_dispatch (o : Except Str Str) (ev : HEvent) (v : Json)
    (hm : ev.httpMethod = sPOST)
    (hd : (Fn.dispatch o (ev.body.getD emptyObjStr)).1 = .ok v) :
    (Fn.handler o ev).1 = ⟨200, v⟩ := by
  rcases he : Fn.dispatch o (ev.body.getD emptyObjStr) with ⟨res, n⟩
  have hres : res = .ok v := by rw [he] at hd; exact hd
  subst hres
  simp [Fn.handler, hm, he]

/-- Claim C2: for every model output string that, after fence stripping,
parses as JSON but lacks a required top-level key (`articleTitle`,
`neutralSummary`, `biasAnalysis` for analysis; `title`, `source`, `url` on
every element for fetchNews), the normalizer throws and the handler returns a
500 whose error message is a non-empty string. -/
theorem malformed_output_rejected :
    (∀ raw j, jsonParse (stripFences raw) = some j →
      (getField j kArticleTitle = none ∨ getField j kNeutralSummary = none
        ∨ getField j kBiasAnalysis = none) →
      (∀ u l, Fn.analyzeArticle u l (.ok raw) = .error mCouldNotParseAnalysis)
      ∧ mCouldNotParseAnalysis ≠ []
      ∧ (∀ ev b, ev.httpMethod = sPOST →
          jsonParse (ev.body.getD emptyObjStr) = some b →
          isActionStr (getField b kAction) sAnalyze = true →
          truthy (getField b kArticleUrl) = true →
          truthy (getField b kLanguage) = true →
          (Fn.handler (.ok raw) ev).1 = ⟨500, errBody mCouldNotParseAnalysis⟩))
    ∧ (∀ raw items, jsonParse (stripFences raw) = some (.arr items) →
      (∃ it ∈ items, getField it kTitle = none ∨ getField it kSource = none
        ∨ getField it kUrl = none) →
      (∀ c, Fn.fetchNews c (.ok raw) = .error mInvalidNewsStructure)
      ∧ mInvalidNewsStructure ≠ []
      ∧ (∀ ev b, ev.httpMethod = sPOST →
          jsonParse (ev.body.getD emptyObjStr) = some b →
          isActionStr (getField b kAction) sFetchNews = true →
          truthy (getField b kCategory) = true →
          (Fn.handler (.ok raw) ev).1 = ⟨500, errBody mInvalidNewsStructure⟩)) := by
  constructor
  · intro raw j hp hmiss
    have hcheck : (truthy (getField j kArticleTitle) && truthy (getField j kNeutralSummary)
        && truthy (getField j kBiasAnalysis)) = false := by
      rcases hmiss with h | h | h <;> simp [h, truthy]
    have hA : ∀ u l, Fn.analyzeArticle u l (.ok raw) = .error mCouldNotParseAnalysis := by
      intro u l
      simp [Fn.analyzeArticle, hp, hcheck]
    refine ⟨hA, by decide, ?_⟩
    intro ev b hm hb hact hu hl
    apply handler_error_of_dispatch _ _ _ hm
    simp [Fn.dispatch, hb, hact, hu, hl, hA]
  · intro raw items hp hex
    have hcheck : items.all (fun it =>
        truthy (getField it kTitle) && truthy (getField it kSource)
          && truthy (getField it kUrl)) = false := by
      rcases hex with ⟨it, hmem, hcase⟩
      rw [List.all_eq_false]
      refine ⟨it, hmem, ?_⟩
      rcases hcase with h | h | h <;> simp [h, truthy]
    have hF : ∀ c, Fn.fetchNews c (.ok raw) = .error mInvalidNewsStructure := by
      intro c
      simp [Fn.fetchNews, hp, hcheck]
    refine ⟨hF, by decide, ?_⟩
    intro ev b hm hb hact hc
    apply handler_error_of_dispatch _ _ _ hm
    have hactA : isActionStr (getField b kAction) sAnalyze = false := by
      revert hact
      cases ha : getField b kAction with
      | none => simp [isActionStr]
      | some aj =>
        cases aj <;> simp [isActionStr] <;> intro h <;> subst h <;> decide
    have hactT : isActionStr (getField b kAction) sTranslate = false := by
      revert hact
      cases ha : getField b kAction with
      | none => simp [isActionStr]
      | some aj =>
        cases aj <;> simp [isActionStr] <;> intro h <;> subst h <;> decide
    have hactX : isActionStr (getField b kAction) sTranslateTexts = false := by
      revert hact
      cases ha : getField b kAction with
      | none => simp [isActionStr]
      | some aj =>
        cases aj <;> simp [isActionStr] <;> intro h <;> subst h <;> decide
    simp [Fn.dispatch, hb, hact, hactA, hactT, hactX, hc, hF]

/-- Witness for C2: a concrete model output missing `neutralSummary` makes a
well-formed analyze request come back as a 500 with the fixed non-empty
parse-failure message. -/
theorem malformed_output_rejected_witness :
    (Fn.handler (.ok ("\x7b\"articleTitle\":\"t\"\x7d".toList))
      ⟨sPOST, some ("\x7b\"action\":\"analyze\",\"articleUrl\":\"u\",\"language\":\"en\"\x7d".toList)⟩).1
      = ⟨500, errBody mCouldNotParseAnalysis⟩ :=
  ((malformed_output_rejected.1 ("\x7b\"articleTitle\":\"t\"\x7d".toList)
      (.obj [(kArticleTitle, .str ("t".toList))]) (by rfl)
      (Or.inr (Or.inl (by rfl)))).2.2 _ _ rfl (by rfl) (by rfl) (by rfl) (by rfl))

/-- Helper: the LLM-call count of a POST invocation is the dispatch count. -/
theorem handler_calls_eq (o : Except Str Str) (ev : HEvent)
    (hm : ev.httpMethod = sPOST) :
    (Fn.handler o ev).2 = (Fn.dispatch o (ev.body.getD emptyObjStr)).2 := by
  rcases he : Fn.dispatch o (ev.body.getD emptyObjStr) with ⟨res, n⟩
  cases res <;> simp [Fn.handler, hm, he]

/-- Helper: a POST request whose proxy dispatch fails yields the proxy 500
response. -/
theorem proxy_handler_error_of_dispatch (apiKey : Option Str) (o1 o2 : Except Str Str)
    (ev : HEvent) (m : Str) (hm : ev.httpMethod = sPOST)
    (hd : (Proxy.dispatch apiKey o1 o2 (ev.body.getD emptyObjStr)).1 = .error m) :
    (Proxy.handler apiKey o1 o2 ev).1 = ⟨500, errBody m⟩ := by
  rcases he : Proxy.dispatch apiKey o1 o2 (ev.body.getD emptyObjStr) with ⟨res, n⟩
  have hres : res = .error m := by rw [he] at hd; exact hd
  subst hres
  simp [Proxy.handler, hm, he]

/-- Helper: the proxy LLM-call count of a POST invocation is its dispatch
count. -/
theorem proxy_handler_calls_eq (apiKey : Option Str) (o1 o2 : Except Str Str)
    (ev : HEvent) (hm : ev.httpMethod = sPOST) :
    (Proxy.handler apiKey o1 o2 ev).2
      = (Proxy.dispatch apiKey o1 o2 (ev.body.getD emptyObjStr)).2 := by
  rcases he : Proxy.dispatch apiKey o1 o2 (ev.body.getD emptyObjStr) with ⟨res, n⟩
  cases res <;> simp [Proxy.handler, hm, he]

/-- Helper: a scrutinee that switch-matches the string `s` is that string. -/
theorem eq_of_isActionStr {a : Option Json} {s : Str}
    (h : isActionStr a s = true) : a = some (.str s) := by
  cases a with
  | none => simp [isActionStr] at h
  | some aj =>
    cases aj with
    | str u => simp [isActionStr] at h; subst h; rfl
    | null => simp [isActionStr] at h
    | bool b => simp [isActionStr] at h
    | num m e => simp [isActionStr] at h
    | arr xs => simp [isActionStr] at h
    | obj fs => simp [isActionStr] at h

/-- Claim C3: for every POST request whose body is missing a required field
for its action (`articleUrl`/`language` for analyze, `analysis`/
`targetLanguage` for translate, `texts`/`targetLanguage` for translateTexts,
`category` for fetchNews — and the corresponding payload fields of the proxy
variant), the handler returns an error response (status 500) without making
any call to the external LLM client (call count 0). -/
theorem missing_fields_no_llm_call :
    (∀ o ev b, ev.httpMethod = sPOST →
      jsonParse (ev.body.getD emptyObjStr) = some b →
      ((isActionStr (getField b kAction) sAnalyze = true →
        (truthy (getField b kArticleUrl) = false ∨ truthy (getField b kLanguage) = false) →
        (Fn.handler o ev).2 = 0 ∧ (Fn.handler o ev).1.statusCode = 500)
      ∧ (isActionStr (getField b kAction) sTranslate = true →
        (truthy (getField b kAnalysis) = false
          ∨ truthy (getField b kTargetLanguage) = false) →
        (Fn.handler o ev).2 = 0 ∧ (Fn.handler o ev).1.statusCode = 500)
      ∧ (isActionStr (getField b kAction) sTranslateTexts = true →
        (truthy (getField b kTexts) = false
          ∨ truthy (getField b kTargetLanguage) = false) →
        (Fn.handler o ev).2 = 0 ∧ (Fn.handler o ev).1.statusCode = 500)
      ∧ (isActionStr (getField b kAction) sFetchNews = true →
        truthy (getField b kCategory) = false →
        (Fn.handler o ev).2 = 0 ∧ (Fn.handler o ev).1.statusCode = 500)))
    ∧ (∀ apiKey o1 o2 ev b, ev.httpMethod = sPOST →
      jsonParse (ev.body.getD emptyObjStr) = some b →
      ((isActionStr (getField b kAction) sAnalyzeNewsArticle = true →
        (truthy (Proxy.pfield b kArticleUrl) = false
          ∨ truthy (Proxy.pfield b kLanguage) = false) →
        (Proxy.handler apiKey o1 o2 ev).2 = 0
          ∧ (Proxy.handler apiKey o1 o2 ev).1.statusCode = 500)
      ∧ (isActionStr (getField b kAction) sTranslateAnalysisResult = true →
        (truthy (Proxy.pfield b kAnalysis) = false
          ∨ truthy (Proxy.pfield b kTargetLanguage) = false) →
        (Proxy.handler apiKey o1 o2 ev).2 = 0
          ∧ (Proxy.handler apiKey o1 o2 ev).1.statusCode = 500)
      ∧ (isActionStr (getField b kAction) sTranslateTexts = true →
        (truthy (Proxy.pfield b kTexts) = false
          ∨ truthy (Proxy.pfield b kTargetLanguage) = false) →
        (Proxy.handler apiKey o1 o2 ev).2 = 0
          ∧ (Proxy.handler apiKey o1 o2 ev).1.statusCode = 500)
      ∧ (isActionStr (getField b kAction) sFetchLatestNews = true →
        truthy (Proxy.pfield b kCategory) = false →
        (Proxy.handler apiKey o1 o2 ev).2 = 0
          ∧ (Proxy.handler apiKey o1 o2 ev).1.statusCode = 500))) := by
  constructor
  · intro o ev b hm hb
    refine ⟨?_, ?_, ?_, ?_⟩
    · intro hact hmiss
      have ha := eq_of_isActionStr hact
      have hguard : (truthy (getField b kArticleUrl) && truthy (getField b kLanguage))
          = false := by
        rcases hmiss with h | h <;> simp [h]
      have hd : Fn.dispatch o (ev.body.getD emptyObjStr) = (.error mMissingAnalyze, 0) := by
        simp [Fn.dispatch, hb, ha, hguard,
          show isActionStr (some (.str sAnalyze)) sAnalyze = true from rfl]
      exact ⟨by rw [handler_calls_eq o ev hm, hd],
        by rw [handler_error_of_dispatch o ev mMissingAnalyze hm (by rw [hd])]⟩
    · intro hact hmiss
      have ha := eq_of_isActionStr hact
      have hguard : (truthy (getField b kAnalysis) && truthy (getField b kTargetLanguage))
          = false := by
        rcases hmiss with h | h <;> simp [h]
      have hd : Fn.dispatch o (ev.body.getD emptyObjStr) = (.error mMissingTranslate, 0) := by
        simp [Fn.dispatch, hb, ha, hguard,
          show isActionStr (some (.str sTranslate)) sAnalyze = false from rfl,
          show isActionStr (some (.str sTranslate)) sTranslate = true from rfl]
      exact ⟨by rw [handler_calls_eq o ev hm, hd],
        by rw [handler_error_of_dispatch o ev mMissingTranslate hm (by rw [hd])]⟩
    · intro hact hmiss
      have ha := eq_of_isActionStr hact
      have hguard : (truthy (getField b kTexts) && truthy (getField b kTargetLanguage))
          = false := by
        rcases hmiss with h | h <;> simp [h]
      have hd : Fn.dispatch o (ev.body.getD emptyObjStr)
          = (.error mMissingTranslateTexts, 0) := by
        simp [Fn.dispatch, hb, ha, hguard,
          show isActionStr (some (.str sTranslateTexts)) sAnalyze = false from rfl,
          show isActionStr (some (.str sTranslateTexts)) sTranslate = false from rfl,
          show isActionStr (some (.str sTranslateTexts)) sTranslateTexts = true from rfl]
      exact ⟨by rw [handler_calls_eq o ev hm, hd],
        by rw [handler_error_of_dispatch o ev mMissingTranslateTexts hm (by rw [hd])]⟩
    · intro hact hmiss
      have ha := eq_of_isActionStr hact
      have hd : Fn.dispatch o (ev.body.getD emptyObjStr) = (.error mMissingFetchNews, 0) := by
        simp [Fn.dispatch, hb, ha, hmiss,
          show isActionStr (some (.str sFetchNews)) sAnalyze = false from rfl,
          show isActionStr (some (.str sFetchNews)) sTranslate = false from rfl,
          show isActionStr (some (.str sFetchNews)) sTranslateTexts = false from rfl,
          show isActionStr (some (.str sFetchNews)) sFetchNews = true from rfl]
      exact ⟨by rw [handler_calls_eq o ev hm, hd],
        by rw [handler_error_of_dispatch o ev mMissingFetchNews hm (by rw [hd])]⟩
  · intro apiKey o1 o2 ev b hm hb
    refine ⟨?_, ?_, ?_, ?_⟩
    · intro hact hmiss
      have ha := eq_of_isActionStr hact
      have hguard : (truthy (Proxy.pfield b kArticleUrl)
          && truthy (Proxy.pfield b kLanguage)) = false := by
        rcases hmiss with h | h <;> simp [h]
      have hd : Proxy.dispatch apiKey o1 o2 (ev.body.getD emptyObjStr)
          = (.error Proxy.mMissingAnalyzeB, 0) := by
        simp [Proxy.dispatch, hb, ha, hguard,
          show truthy (some (.str sAnalyzeNewsArticle)) = true from rfl,
          show isActionStr (some (.str sAnalyzeNewsArticle)) sAnalyzeNewsArticle = true
            from rfl]
      exact ⟨by rw [proxy_handler_calls_eq apiKey o1 o2 ev hm, hd],
        by rw [proxy_handler_error_of_dispatch apiKey o1 o2 ev Proxy.mMissingAnalyzeB hm
          (by rw [hd])]⟩
    · intro hact hmiss
      have ha := eq_of_isActionStr hact
      have hguard : (truthy (Proxy.pfield b kAnalysis)
          && truthy (Proxy.pfield b kTargetLanguage)) = false := by
        rcases hmiss with h | h <;> simp [h]
      have hd : Proxy.dispatch apiKey o1 o2 (ev.body.getD emptyObjStr)
          = (.error Proxy.mMissingTranslateB, 0) := by
        simp [Proxy.dispatch, hb, ha, hguard,
          show truthy (some (.str sTranslateAnalysisResult)) = true from rfl,
          show isActionStr (some (.str sTranslateAnalysisResult)) sAnalyzeNewsArticle = false
            from rfl,
          show isActionStr (some (.str sTranslateAnalysisResult)) sTranslateAnalysisResult
            = true from rfl]
      exact ⟨by rw [proxy_handler_calls_eq apiKey o1 o2 ev hm, hd],
        by rw [proxy_handler_error_of_dispatch apiKey o1 o2 ev Proxy.mMissingTranslateB hm
          (by rw [hd])]⟩
    · intro hact hmiss
      have ha := eq_of_isActionStr hact
      have hguard : (truthy (Proxy.pfield b kTexts)
          && truthy (Proxy.pfield b kTargetLanguage)) = false := by
        rcases hmiss with h | h <;> simp [h]
      have hd : Proxy.dispatch apiKey o1 o2 (ev.body.getD emptyObjStr)
          = (.error Proxy.mMissingTranslateTextsB, 0) := by
        simp [Proxy.dispatch, hb, ha, hguard,
          show truthy (some (.str sTranslateTexts)) = true from rfl,
          show isActionStr (some (.str sTranslateTexts)) sAnalyzeNewsArticle = false from rfl,
          show isActionStr (some (.str sTranslateTexts)) sTranslateAnalysisResult = false
            from rfl,
          show isActionStr (some (.str sTranslateTexts)) sTranslateTexts = true from rfl]
      exact ⟨by rw [proxy_handler_calls_eq apiKey o1 o2 ev hm, hd],
        by rw [proxy_handler_error_of_dispatch apiKey o1 o2 ev Proxy.mMissingTranslateTextsB
          hm (by rw [hd])]⟩
    · intro hact hmiss
      have ha := eq_of_isActionStr hact
      have hd : Proxy.dispatch apiKey o1 o2 (ev.body.getD emptyObjStr)
          = (.error Proxy.mMissingFetchNewsB, 0) := by
        simp [Proxy.dispatch, hb, ha, hmiss,
          show truthy (some (.str sFetchLatestNews)) = true from rfl,
          show isActionStr (some (.str sFetchLatestNews)) sAnalyzeNewsArticle = false from rfl,
          show isActionStr (some (.str sFetchLatestNews)) sTranslateAnalysisResult = false
            from rfl,
          show isActionStr (some (.str sFetchLatestNews)) sTranslateTexts = false from rfl,
          show isActionStr (some (.str sFetchLatestNews)) sFetchLatestNews = true from rfl]
      exact ⟨by rw [proxy_handler_calls_eq apiKey o1 o2 ev hm, hd],
        by rw [proxy_handler_error_of_dispatch apiKey o1 o2 ev Proxy.mMissingFetchNewsB hm
          (by rw [hd])]⟩

/-- Witness for C3: a concrete analyze request with no `language` field is
rejected with status 500 and zero LLM calls. -/
theorem missing_fields_no_llm_call_witness :
    (Fn.handler (.ok []) ⟨sPOST,
        some ("\x7b\"action\":\"analyze\",\"articleUrl\":\"u\"\x7d".toList)⟩).2 = 0
    ∧ (Fn.handler (.ok []) ⟨sPOST,
        some ("\x7b\"action\":\"analyze\",\"articleUrl\":\"u\"\x7d".toList)⟩).1.statusCode
      = 500 :=
  (missing_fields_no_llm_call.1 (.ok []) _ _ rfl (by rfl)).1 (by rfl) (Or.inr (by rfl))

/-- Counterexample to C4 as stated: on the concrete model output
"```json\n[1]" — a leading fence marker but no trailing one — the code does
NOT remove only the leading marker: `substring(7, length - 3)` chops the last
three characters unconditionally, so the code yields the empty string where
the claimed behavior yields "\n[1]". -/
theorem strip_fences_counterexample :
    stripFences ("```json\n[1]".toList) = []
    ∧ stripFencesClaimed ("```json\n[1]".toList) = "\n[1]".toList
    ∧ stripFences ("```json\n[1]".toList) ≠ stripFencesClaimed ("```json\n[1]".toList) :=
  ⟨by rfl, by rfl, by decide⟩

/-- Claim C4, amended: when the trimmed text starts with a fence marker AND
ends with a trailing "```" (and is long enough that the two markers do not
overlap), the normalizer removes exactly those markers and additionally trims
surrounding whitespace; when the trimmed text has no leading fence marker it
is parsed unchanged.  (When a leading marker is present without a trailing
one, the code still removes the final three characters — see the
counterexample.) -/
theorem strip_fences_exact (raw : Str) :
    (startsWithS (trimStr raw) fenceJson = true →
      endsWithS (trimStr raw) fence3 = true → 10 ≤ (trimStr raw).length →
      stripFences raw = trimStr (stripFencesClaimed raw))
    ∧ (startsWithS (trimStr raw) fenceJson = false →
      startsWithS (trimStr raw) fence3 = true →
      endsWithS (trimStr raw) fence3 = true → 6 ≤ (trimStr raw).length →
      stripFences raw = trimStr (stripFencesClaimed raw))
    ∧ (startsWithS (trimStr raw) fenceJson = false →
      startsWithS (trimStr raw) fence3 = false →
      stripFences raw = trimStr raw ∧ stripFencesClaimed raw = trimStr raw) := by
  refine ⟨?_, ?_, ?_⟩
  · intro h7 hE hL
    set t := trimStr raw with ht
    have hE' : t.drop (t.length - 3) = fence3 := by
      have := hE
      simp only [endsWithS, show fence3.length = 3 from rfl, decide_eq_true_eq] at this
      exact this
    have hlen7 : (t.drop 7).length = t.length - 7 := List.length_drop 7 t
    have hc : endsWithS (t.drop 7) fence3 = true := by
      simp only [endsWithS, show fence3.length = 3 from rfl, decide_eq_true_eq, hlen7,
        List.drop_drop]
      have harith : 7 + (t.length - 7 - 3) = t.length - 3 := by omega
      rw [harith]
      exact hE'
    have e1 : stripFences raw = trimStr (jsSubstring t 7 (t.length - 3)) := by
      simp [stripFences, ← ht, h7]
    have e2 : stripFencesClaimed raw = (t.drop 7).take ((t.drop 7).length - 3) := by
      simp [stripFencesClaimed, ← ht, h7, hc]
    rw [e1, e2]
    have e3 : jsSubstring t 7 (t.length - 3) = (t.drop 7).take ((t.drop 7).length - 3) := by
      simp only [jsSubstring]
      have h1 : min 7 t.length = 7 := by omega
      have h2 : min (t.length - 3) t.length = t.length - 3 := by omega
      rw [h1, h2]
      have h3 : max 7 (t.length - 3) = t.length - 3 := by omega
      have h4 : min 7 (t.length - 3) = 7 := by omega
      rw [h3, h4, List.drop_take, hlen7]
      congr 1
    rw [e3]
  · intro h7 h3 hE hL
    set t := trimStr raw with ht
    have hE' : t.drop (t.length - 3) = fence3 := by
      have := hE
      simp only [endsWithS, show fence3.length = 3 from rfl, decide_eq_true_eq] at this
      exact this
    have hlen3 : (t.drop 3).length = t.length - 3 := List.length_drop 3 t
    have hc : endsWithS (t.drop 3) fence3 = true := by
      simp only [endsWithS, show fence3.length = 3 from rfl, decide_eq_true_eq, hlen3,
        List.drop_drop]
      have harith : 3 + (t.length - 3 - 3) = t.length - 3 := by omega
      rw [harith]
      exact hE'
    have e1 : stripFences raw = trimStr (jsSubstring t 3 (t.length - 3)) := by
      simp [stripFences, ← ht, h7, h3]
    have e2 : stripFencesClaimed raw = (t.drop 3).take ((t.drop 3).length - 3) := by
      simp [stripFencesClaimed, ← ht, h7, h3, hc]
    rw [e1, e2]
    have e3 : jsSubstring t 3 (t.length - 3) = (t.drop 3).take ((t.drop 3).length - 3) := by
      simp only [jsSubstring]
      have h1 : min 3 t.length = 3 := by omega
      have h2 : min (t.length - 3) t.length = t.length - 3 := by omega
      rw [h1, h2]
      have h3m : max 3 (t.length - 3) = t.length - 3 := by omega
      have h4 : min 3 (t.length - 3) = 3 := by omega
      rw [h3m, h4, List.drop_take, hlen3]
    rw [e3]
  · intro h7 h3
    constructor
    · simp [stripFences, h7, h3]
    · simp [stripFencesClaimed, h7, h3]

/-- Witness for C4 (amended): a fully fenced output is stripped to exactly the
claimed content up to trimming, and a fence-free output is left unchanged. -/
theorem strip_fences_exact_witness :
    stripFences ("```json\n[1, 2]\n```".toList)
      = trimStr (stripFencesClaimed ("```json\n[1, 2]\n```".toList))
    ∧ stripFences ("plain".toList) = trimStr ("plain".toList) :=
  ⟨(strip_fences_exact _).1 (by rfl) (by rfl) (by decide),
   ((strip_fences_exact _).2.2 (by rfl) (by rfl)).1⟩

/-- Claim C5: for every URL that already has an entry in the client-side
history list, submitting that URL again returns the stored `AnalysisResult`
from the matching history entry (the history itself unchanged) and does not
invoke the analysis operation: zero calls to `analyzeNewsArticle`. -/
theorem cached_url_no_reanalysis (now : Int) (o : Except Str AnalysisResult) (url : Str)
    (st : App.AppState) (it : HistoryItem) (hmem : it ∈ st.history) (hurl : it.url = url) :
    (App.handleUrlSubmit now o url st).2 = 0
    ∧ (App.handleUrlSubmit now o url st).1.history = st.history
    ∧ ∃ it2 ∈ st.history, it2.url = url
        ∧ (App.handleUrlSubmit now o url st).1.analysisResult = some it2.analysis := by
  have hsome : (st.history.find? (fun item => item.url = url)).isSome :=
    List.find?_isSome.mpr ⟨it, hmem, by simp [hurl]⟩
  obtain ⟨x, hf⟩ := Option.isSome_iff_exists.mp hsome
  have hxmem : x ∈ st.history := List.mem_of_find?_eq_some hf
  have hxurl : x.url = url := by
    have := List.find?_some hf
    simpa using this
  refine ⟨?_, ?_, x, hxmem, hxurl, ?_⟩
  · simp [App.handleUrlSubmit, hf]
  · simp [App.handleUrlSubmit, hf]
  · simp [App.handleUrlSubmit, hf]

/-- Witness for C5: resubmitting a cached URL on a concrete one-entry history
makes no analysis call and returns the cached analysis. -/
theorem cached_url_no_reanalysis_witness :
    (App.handleUrlSubmit 7
      (.error ("network".toList)) ("https://a".toList)
      ⟨none, false, false, none,
        [⟨"https://a".toList, "https://a".toList, "T".toList,
          ⟨"T".toList, "n".toList, "f".toList, "e".toList,
            ⟨⟨"Positive".toList, "f".toList, []⟩, ⟨"f".toList, []⟩, ⟨"f".toList, []⟩,
              ⟨"f".toList, []⟩, ⟨"f".toList, []⟩⟩⟩, 1⟩],
        none, "English".toList⟩).2 = 0 :=
  (cached_url_no_reanalysis 7 (.error ("network".toList)) ("https://a".toList) _ _
    (List.mem_singleton.mpr rfl) rfl).1

/-- Counterexample to C6 as stated: when the fetch yields zero results, the
service returns `([], live)` — the empty array passes the `every` check — and
the component takes the could-not-fetch ERROR path: no mock substitution
(`isFallback` stays false, `headlines` stays empty, an error message is set),
even though the mock list (length 5) was available. -/
theorem empty_news_counterexample :
    Client.fetchLatestNews (.ok ("[]".toList)) = ([], .live)
    ∧ (LatestNews.getNews ("political".toList) (Client.fetchLatestNews (.ok ("[]".toList)))
        ⟨[], false, none, false⟩).isFallback = false
    ∧ (LatestNews.getNews ("political".toList) (Client.fetchLatestNews (.ok ("[]".toList)))
        ⟨[], false, none, false⟩).headlines = []
    ∧ (LatestNews.getNews ("political".toList) (Client.fetchLatestNews (.ok ("[]".toList)))
        ⟨[], false, none, false⟩).error.isSome = true
    ∧ Client.mockNews.length = 5 :=
  ⟨rfl, rfl, rfl, rfl, rfl⟩

/-- Claim C6, amended: when the fetch yields zero live results the component
shows a could-not-fetch error message and does NOT substitute the mock list;
the mock-fallback path is taken exactly when the fetch operation fails
(rejection or parse/shape failure), in which case the service returns the
hardcoded list tagged `mock` and the component shows it with the fallback
banner. -/
theorem empty_news_shows_error :
    (∀ cat st news src2, news = ([] : List Json) →
      (LatestNews.getNews cat (news, src2) st).error
          = some (LatestNews.mCouldNotFetchA ++ cat ++ LatestNews.mCouldNotFetchB)
        ∧ (LatestNews.getNews cat (news, src2) st).isFallback = false
        ∧ (LatestNews.getNews cat (news, src2) st).headlines = st.headlines)
    ∧ (∀ e, Client.fetchLatestNews (.error e) = (Client.mockNews, .mock))
    ∧ (∀ cat st, (LatestNews.getNews cat (Client.mockNews, .mock) st).headlines
          = Client.mockNews
        ∧ (LatestNews.getNews cat (Client.mockNews, .mock) st).isFallback = true
        ∧ (LatestNews.getNews cat (Client.mockNews, .mock) st).error = none)
    ∧ Client.mockNews.length = 5 := by
  refine ⟨?_, ?_, ?_, rfl⟩
  · intro cat st news src2 h
    subst h
    exact ⟨rfl, rfl, rfl⟩
  · intro e
    rfl
  · intro cat st
    exact ⟨rfl, rfl, rfl⟩

/-- Witness for C6 (amended): a concrete zero-result fetch leaves the fallback
flag off. -/
theorem empty_news_shows_error_witness :
    (LatestNews.getNews ("political".toList) ([], .live)
      ⟨[], true, none, false⟩).isFallback = false :=
  (empty_news_shows_error.1 ("political".toList) ⟨[], true, none, false⟩ [] .live rfl).2.1

/-- Counterexample to C7 as stated: a failure of the `translateTexts`
operation does NOT surface the error message — the client substitutes the
identity mapping of the input texts, indistinguishable from a successful
response carrying that same mapping. -/
theorem translate_texts_fallback_counterexample :
    Client.translateTexts [("Political".toList)] (.error ("boom".toList))
      = Json.obj [(("Political".toList), .str ("Political".toList))]
    ∧ Client.translateTexts [("Political".toList)] (.error ("boom".toList))
      = Client.translateTexts [("Political".toList)]
          (.ok ("\x7b\"Political\":\"Political\"\x7d".toList)) :=
  ⟨rfl, rfl⟩

/-- Claim C7, amended: every failure of the headline fetch substitutes the
hardcoded five-item mock list (so a failed fetch never yields an empty list),
and analyze/translate failures surface an error containing the underlying
message with no substituted content; but `translateTexts` failures are a
second silent-substitution path: they return the identity mapping of the input
texts instead of an error. -/
theorem failure_fallback_behavior :
    (∀ e, Client.fetchLatestNews (.error e) = (Client.mockNews, .mock))
    ∧ (∀ txt, jsonParse (stripFences txt) = none →
        Client.fetchLatestNews (.ok txt) = (Client.mockNews, .mock))
    ∧ (∀ o, (Client.fetchLatestNews o).2 = .mock →
        (Client.fetchLatestNews o).1 = Client.mockNews
          ∧ (Client.fetchLatestNews o).1 ≠ [])
    ∧ (∀ e, Client.analyzeNewsArticle (.error e)
        = .error ("Failed to get analysis from the AI model: ".toList ++ e))
    ∧ (∀ e, Client.translateAnalysisResult (.error e)
        = .error ("Failed to translate the analysis: ".toList ++ e))
    ∧ (∀ texts e, Client.translateTexts texts (.error e)
        = .obj (texts.map fun t => (t, .str t))) := by
  refine ⟨fun e => rfl, ?_, ?_, fun e => rfl, fun e => rfl, fun texts e => rfl⟩
  · intro txt h
    simp [Client.fetchLatestNews, h]
  · intro o h
    rcases o with e | txt
    · exact ⟨rfl, by simp [Client.fetchLatestNews, Client.mockNews]⟩
    · cases hp : jsonParse (stripFences txt) with
      | none =>
        have hr : Client.fetchLatestNews (.ok txt) = (Client.mockNews, .mock) := by
          simp [Client.fetchLatestNews, hp]
        rw [hr]
        exact ⟨rfl, by simp [Client.mockNews]⟩
      | some j =>
        cases j with
        | arr items =>
          cases hall : items.all (fun it =>
              truthy (getField it kTitle) && truthy (getField it kSource)
                && truthy (getField it kUrl)) with
          | true =>
            have hr : Client.fetchLatestNews (.ok txt) = (items, .live) := by
              simp [Client.fetchLatestNews, hp, hall]
            rw [hr] at h
            simp at h
          | false =>
            have hr : Client.fetchLatestNews (.ok txt) = (Client.mockNews, .mock) := by
              simp [Client.fetchLatestNews, hp, hall]
            rw [hr]
            exact ⟨rfl, by simp [Client.mockNews]⟩
        | null =>
          have hr : Client.fetchLatestNews (.ok txt) = (Client.mockNews, .mock) := by
            simp [Client.fetchLatestNews, hp]
          rw [hr]
          exact ⟨rfl, by simp [Client.mockNews]⟩
        | bool b =>
          have hr : Client.fetchLatestNews (.ok txt) = (Client.mockNews, .mock) := by
            simp [Client.fetchLatestNews, hp]
          rw [hr]
          exact ⟨rfl, by simp [Client.mockNews]⟩
        | num m ex =>
          have hr : Client.fetchLatestNews (.ok txt) = (Client.mockNews, .mock) := by
            simp [Client.fetchLatestNews, hp]
          rw [hr]
          exact ⟨rfl, by simp [Client.mockNews]⟩
        | str s =>
          have hr : Client.fetchLatestNews (.ok txt) = (Client.mockNews, .mock) := by
            simp [Client.fetchLatestNews, hp]
          rw [hr]
          exact ⟨rfl, by simp [Client.mockNews]⟩
        | obj fs =>
          have hr : Client.fetchLatestNews (.ok txt) = (Client.mockNews, .mock) := by
            simp [Client.fetchLatestNews, hp]
          rw [hr]
          exact ⟨rfl, by simp [Client.mockNews]⟩

/-- Witness for C7 (amended): a concrete unparsable fetch response yields the
mock list. -/
theorem failure_fallback_behavior_witness :
    Client.fetchLatestNews (.ok ("not json".toList)) = (Client.mockNews, .mock) :=
  failure_fallback_behavior.2.1 ("not json".toList) (by rfl)

/-- Counterexample to C8 as stated: in the gemini-proxy variant (types.ts,
cited by the claim) the client is lazily initialized and module scope performs
NO credential check, so with the API key unset requests ARE handled: a GET
gets a 405, and a well-formed fetchLatestNews POST gets a per-request 500
carrying the missing-key message (zero LLM calls) — not a startup failure. -/
theorem lazy_init_counterexample :
    (Proxy.handler none (.error ("x".toList)) (.error ("x".toList))
        ⟨"GET".toList, none⟩).1.statusCode = 405
    ∧ (Proxy.handler none (.error ("x".toList)) (.error ("x".toList))
        ⟨sPOST, some ("\x7b\"action\":\"fetchLatestNews\",\"payload\":\x7b\"category\":\"tech\"\x7d\x7d".toList)⟩).1
      = ⟨500, errBody Proxy.mKeyMissing⟩
    ∧ (Proxy.handler none (.error ("x".toList)) (.error ("x".toList))
        ⟨sPOST, some ("\x7b\"action\":\"fetchLatestNews\",\"payload\":\x7b\"category\":\"tech\"\x7d\x7d".toList)⟩).2
      = 0 :=
  ⟨rfl, rfl, rfl⟩

/-- Claim C8, amended: in src/functions/analyze.ts the credential is read at
module initialization and a falsy value is fatal at cold start — no request is
handled; but in the gemini-proxy variant (types.ts) initialization is lazy:
module scope succeeds without the key, requests are handled, and the missing
key surfaces as a per-request 500 during the first operation. -/
theorem credential_check_behavior :
    (∀ o ev, Fn.coldStart none o ev = .error mKeyMissingFn)
    ∧ (∀ o ev, Fn.coldStart (some []) o ev = .error mKeyMissingFn)
    ∧ (∀ k o ev, k ≠ [] → Fn.coldStart (some k) o ev = .ok (Fn.handler o ev))
    ∧ mKeyMissingFn ≠ []
    ∧ (∀ o1 o2 ev, ev.httpMethod ≠ sPOST →
        (Proxy.handler none o1 o2 ev).1.statusCode = 405)
    ∧ (∀ o1 o2 ev b, ev.httpMethod = sPOST →
        jsonParse (ev.body.getD emptyObjStr) = some b →
        isActionStr (getField b kAction) sFetchLatestNews = true →
        truthy (Proxy.pfield b kCategory) = true →
        (Proxy.handler none o1 o2 ev).1 = ⟨500, errBody Proxy.mKeyMissing⟩
          ∧ (Proxy.handler none o1 o2 ev).2 = 0) := by
  refine ⟨fun o ev => rfl, fun o ev => rfl, ?_, by decide, ?_, ?_⟩
  · intro k o ev hk
    cases k with
    | nil => exact absurd rfl hk
    | cons c t => rfl
  · intro o1 o2 ev h
    simp [Proxy.handler, h]
  · intro o1 o2 ev b hm hb hact hc
    have ha := eq_of_isActionStr hact
    have hd : Proxy.dispatch none o1 o2 (ev.body.getD emptyObjStr)
        = (.error Proxy.mKeyMissing, 0) := by
      simp [Proxy.dispatch, hb, ha, hc, Proxy.fetchLatestNews, Proxy.getAiClient,
        Fn.truthyEnv,
        show truthy (some (.str sFetchLatestNews)) = true from rfl,
        show isActionStr (some (.str sFetchLatestNews)) sAnalyzeNewsArticle = false from rfl,
        show isActionStr (some (.str sFetchLatestNews)) sTranslateAnalysisResult = false
          from rfl,
        show isActionStr (some (.str sFetchLatestNews)) sTranslateTexts = false from rfl,
        show isActionStr (some (.str sFetchLatestNews)) sFetchLatestNews = true from rfl]
    exact ⟨proxy_handler_error_of_dispatch none o1 o2 ev Proxy.mKeyMissing hm (by rw [hd]),
      by rw [proxy_handler_calls_eq none o1 o2 ev hm, hd]⟩

/-- Witness for C8 (amended): with a concrete non-empty key the analyze.ts
cold start succeeds and hands the event to the handler. -/
theorem credential_check_behavior_witness :
    Fn.coldStart (some ("k".toList)) (.ok []) ⟨"GET".toList, none⟩
      = .ok (Fn.handler (.ok []) ⟨"GET".toList, none⟩) :=
  credential_check_behavior.2.2.1 ("k".toList) (.ok []) ⟨"GET".toList, none⟩ (by decide)

/-- A sample fully-populated `AnalysisResult` used to instantiate the C9
statements. -/
def aEx : AnalysisResult :=
  ⟨"T".toList, "n".toList, "f".toList, "e".toList,
    ⟨⟨"Positive".toList, "tf".toList, ["q".toList]⟩, ⟨"ff".toList, []⟩, ⟨"cf".toList, []⟩,
      ⟨"mf".toList, []⟩, ⟨"pf".toList, []⟩⟩⟩

/-- Counterexample to C9 as stated: the translate operation performs no
validation, so for a full `AnalysisResult` input (whose serialization does
satisfy the shape) a model output of `\x7b"foo":1\x7d` is returned as-is: the
result's key set differs from the input's at the top level and the
`biasAnalysis.tone.classification` value is gone, not preserved. -/
theorem translate_no_validation_counterexample :
    Fn.translateAnalysis (analysisToJson aEx) ("French".toList)
        (.ok ("\x7b\"foo\":1\x7d".toList))
      = .ok (.obj [(("foo".toList), .num 1 0)])
    ∧ analysisShape (.obj [(("foo".toList), .num 1 0)]) = false
    ∧ classificationOf (.obj [(("foo".toList), .num 1 0)]) = none
    ∧ aEx.biasAnalysis.tone.classification = "Positive".toList
    ∧ analysisShape (analysisToJson aEx) = true :=
  ⟨rfl, rfl, rfl, rfl, rfl⟩

/-- Claim C9, amended: the translate operation performs no key or
classification validation — it returns exactly the JSON parsed from the
trimmed model output, independently of the input `AnalysisResult`, and
propagates failures; the claimed key-set preservation and classification
stability hold exactly when the model's own output satisfies them. -/
theorem translate_returns_model_output (a : AnalysisResult) (lang : Str) :
    (∀ e, Fn.translateAnalysis (analysisToJson a) lang (.error e) = .error e)
    ∧ (∀ txt j, jsonParse (trimStr txt) = some j →
        Fn.translateAnalysis (analysisToJson a) lang (.ok txt) = .ok j)
    ∧ (∀ txt, jsonParse (trimStr txt) = none →
        Fn.translateAnalysis (analysisToJson a) lang (.ok txt) = .error mJsonParseError)
    ∧ (∀ a2 o, Fn.translateAnalysis (analysisToJson a) lang o
        = Fn.translateAnalysis (analysisToJson a2) lang o)
    ∧ (∀ txt j, jsonParse (trimStr txt) = some j →
        ((analysisShape j = true
            ∧ classificationOf j = some (.str a.biasAnalysis.tone.classification)) ↔
          (∃ r, Fn.translateAnalysis (analysisToJson a) lang (.ok txt) = .ok r
            ∧ analysisShape r = true
            ∧ classificationOf r = some (.str a.biasAnalysis.tone.classification)))) := by
  refine ⟨fun e => rfl, ?_, ?_, fun a2 o => rfl, ?_⟩
  · intro txt j h
    simp [Fn.translateAnalysis, h]
  · intro txt h
    simp [Fn.translateAnalysis, h]
  · intro txt j h
    constructor
    · intro hj
      exact ⟨j, by simp [Fn.translateAnalysis, h], hj.1, hj.2⟩
    · rintro ⟨r, hr, h1, h2⟩
      have hjr : j = r := by
        simp [Fn.translateAnalysis, h] at hr
        exact hr
      subst hjr
      exact ⟨h1, h2⟩

/-- Witness for C9 (amended): a concrete successful model output is returned
verbatim by the translate operation. -/
theorem translate_returns_model_output_witness :
    Fn.translateAnalysis (analysisToJson aEx) ("French".toList)
        (.ok ("\x7b\"articleTitle\":\"t\"\x7d".toList))
      = .ok (.obj [(kArticleTitle, .str ("t".toList))]) :=
  (translate_returns_model_output aEx ("French".toList)).2.1 _ _ (by rfl)

/-- The history invariant of claim C10: every entry's id equals its url, and
the ids are pairwise distinct. -/
def HistInv (h : List HistoryItem) : Prop :=
  (∀ it ∈ h, it.id = it.url) ∧ (h.map (fun it => it.id)).Nodup

/-- Claim C10: every operation that mutates the client-side history list
(submitting a URL, re-translating the active item, clearing history) preserves
the invariant that entries have pairwise-distinct ids and each entry's id
equals its url; re-translation replaces the analysis of only the active entry
and leaves every other entry unchanged. -/
theorem history_invariants_preserved :
    (∀ now o url st, HistInv st.history →
      HistInv (App.handleUrlSubmit now o url st).1.history)
    ∧ (∀ o lang st, HistInv st.history →
      HistInv (App.handleReconvert o lang st).history)
    ∧ (∀ st, HistInv (App.handleClearHistory st).history)
    ∧ (∀ tr lang st ar aid, st.analysisResult = some ar →
        st.activeHistoryId = some aid →
        ((App.handleReconvert (.ok tr) lang st).history.length = st.history.length
        ∧ (∀ (i : Nat) (it : HistoryItem), st.history[i]? = some it → it.id ≠ aid →
            (App.handleReconvert (.ok tr) lang st).history[i]? = some it)
        ∧ (∀ (i : Nat) (it : HistoryItem), st.history[i]? = some it → it.id = aid →
            (App.handleReconvert (.ok tr) lang st).history[i]?
              = some { it with analysis := tr }))) := by
  refine ⟨?_, ?_, ?_, ?_⟩
  · intro now o url st hinv
    cases hf : st.history.find? (fun item => item.url = url) with
    | some x =>
      have hres : (App.handleUrlSubmit now o url st).1.history = st.history := by
        simp [App.handleUrlSubmit, hf]
      rw [hres]; exact hinv
    | none =>
      cases o with
      | error e =>
        have hres : (App.handleUrlSubmit now (.error e) url st).1.history = st.history := by
          simp [App.handleUrlSubmit, hf]
        rw [hres]; exact hinv
      | ok res =>
        have hres : (App.handleUrlSubmit now (.ok res) url st).1.history
            = (⟨url, url, res.articleTitle, res, now⟩ : HistoryItem)
              :: st.history.filter (fun item => item.id ≠ url) := by
          simp [App.handleUrlSubmit, hf]
        rw [hres]
        constructor
        · intro it hit
          rcases List.mem_cons.mp hit with h | h
          · rw [h]
          · exact hinv.1 it (List.mem_of_mem_filter h)
        · rw [List.map_cons]
          refine List.nodup_cons.mpr ⟨?_, ?_⟩
          · intro hmem
            rcases List.mem_map.mp hmem with ⟨it, hitmem, hid⟩
            have hne : it.id ≠ url := by
              have := List.of_mem_filter hitmem
              simpa using this
            exact hne hid
          · exact hinv.2.sublist ((List.filter_sublist st.history).map _)
  · intro o lang st hinv
    cases har : st.analysisResult with
    | none =>
      have hres : App.handleReconvert o lang st = st := by
        simp [App.handleReconvert, har]
      rw [hres]; exact hinv
    | some ar =>
      cases haid : st.activeHistoryId with
      | none =>
        have hres : App.handleReconvert o lang st = st := by
          simp [App.handleReconvert, har, haid]
        rw [hres]; exact hinv
      | some aid =>
        cases o with
        | error e =>
          have hres : (App.handleReconvert (.error e) lang st).history = st.history := by
            simp [App.handleReconvert, har, haid]
          rw [hres]; exact hinv
        | ok tr =>
          have hid_eq : ∀ it0 : HistoryItem,
              (if it0.id = aid then ({ it0 with analysis := tr } : HistoryItem)
                else it0).id = it0.id := by
            intro it0
            by_cases h : it0.id = aid <;> simp [h]
          have hurl_eq : ∀ it0 : HistoryItem,
              (if it0.id = aid then ({ it0 with analysis := tr } : HistoryItem)
                else it0).url = it0.url := by
            intro it0
            by_cases h : it0.id = aid <;> simp [h]
          have hres : (App.handleReconvert (.ok tr) lang st).history
              = st.history.map (fun item =>
                  if item.id = aid then { item with analysis := tr } else item) := by
            simp [App.handleReconvert, har, haid]
          rw [hres]
          constructor
          · intro it hit
            rcases List.mem_map.mp hit with ⟨it0, hmem0, heq⟩
            rw [← heq, hid_eq, hurl_eq]
            exact hinv.1 it0 hmem0
          · have hmm : (st.history.map (fun item =>
                if item.id = aid then { item with analysis := tr } else item)).map
                  (fun it => it.id)
                = st.history.map (fun it => it.id) := by
              rw [List.map_map]
              apply List.map_congr_left
              intro it _
              have := hid_eq it
              simpa [Function.comp] using this
            rw [hmm]
            exact hinv.2
  · intro st
    constructor
    · intro it hit
      simp [App.handleClearHistory] at hit
    · simp [App.handleClearHistory]
  · intro tr lang st ar aid har haid
    have hres : (App.handleReconvert (.ok tr) lang st).history
        = st.history.map (fun item =>
            if item.id = aid then { item with analysis := tr } else item) := by
      simp [App.handleReconvert, har, haid]
    refine ⟨by rw [hres]; exact List.length_map _ _, ?_, ?_⟩
    · intro i it hit hne
      rw [hres, List.getElem?_map _ _ i, hit]
      simp [hne]
    · intro i it hit heq
      rw [hres, List.getElem?_map _ _ i, hit]
      simp [heq]

/-- Witness for C10: submitting a URL on a concrete empty-history state yields
a history satisfying the invariant. -/
theorem history_invariants_preserved_witness :
    HistInv (App.handleUrlSubmit 3 (.error ("e".toList)) ("u".toList)
      ⟨none, false, false, none, [], none, "English".toList⟩).1.history :=
  history_invariants_preserved.1 3 (.error ("e".toList)) ("u".toList)
    ⟨none, false, false, none, [], none, "English".toList⟩ ⟨by simp, by simp⟩
